import Mathlib

/-!
Verification of the `/classify` request handler of the AI Video Effect
Detector backend (`backend/main.py`, function `classify_video_effect`).

The handler is embedded shallowly:

* JSON values (`json.loads` results) are the inductive type `Json`;
  Python's dynamic operations on them (`in`, indexing, item assignment,
  iteration, `float(...)`) are the `py...` functions below, which return
  `Except PyExc _` so that Python's `ValueError` / `TypeError` / `KeyError`
  control flow is explicit.
* Strings manipulated by the handler (the model completion, the uploaded
  filename) are `List Char`; `str.strip`, slicing, `startswith`/`endswith`,
  `str.lower` and `os.path.splitext` are defined on that representation.
* The external collaborators are parameters: `json.loads` is an arbitrary
  `loads : List Char → Option Json` (`none` = `json.JSONDecodeError`),
  Python `float` applied to a string is `stf : String → Option ℚ`
  (`none` = `ValueError`), and the Gemini provider is a `ProviderEnv`
  giving the sequence of file states the provider reports and the raw
  completion text.
* Numbers are `ℚ`.
-/

/-- A parsed JSON value, the result type of `json.loads`. -/
inductive Json where
  | null
  | bool (b : Bool)
  | num (q : ℚ)
  | str (s : String)
  | arr (items : List Json)
  | obj (fields : List (String × Json))

/-- The Python exceptions that the handler's dynamic operations can raise.
`valueError` also stands for `json.JSONDecodeError` (its subclass); the
inner `except (json.JSONDecodeError, ValueError)` at `main.py:259` catches
exactly these, while `typeError` and `keyError` fall through to the outer
`except Exception` at `main.py:269`. -/
inductive PyExc where
  | valueError
  | typeError
  | keyError
deriving DecidableEq

abbrev PyResult (α : Type) := Except PyExc α

/-- First binding of `key` in an association list (Python dict lookup;
`json.loads` never produces duplicate keys). -/
def lookupKey : List (String × Json) → String → Option Json
  | [], _ => none
  | (k, v) :: rest, key => if k = key then some v else lookupKey rest key

/-- Python dict item assignment `d[key] = v`: replaces the value in place
if the key exists (keeping its position), else appends the key at the end
(insertion order). -/
def setKey : List (String × Json) → String → Json → List (String × Json)
  | [], key, v => [(key, v)]
  | (k, w) :: rest, key, v =>
    if k = key then (k, v) :: rest else (k, w) :: setKey rest key v

/-- Key lookup on a JSON value: `none` when the value is not an object or
the key is absent. -/
def getKeyJ : Json → String → Option Json
  | .obj kvs, key => lookupKey kvs key
  | _, _ => none

/-- `needle` occurs as a contiguous substring of `hay`
(Python `needle in hay` for strings). -/
def listIsSubstr (needle : List Char) : List Char → Bool
  | [] => needle.isEmpty
  | c :: rest => needle.isPrefixOf (c :: rest) || listIsSubstr needle rest

/-- Python `==` between a JSON value and a string: only equal strings
compare equal (numbers, booleans, lists never equal a `str`). -/
def jsonEqStr : Json → String → Bool
  | .str s, t => s = t
  | _, _ => false

/-- Python membership test `key in j` for a string `key`:
dict → key lookup, list → element equality, str → substring test,
other values are not iterable (`TypeError`). -/
def pyContains (key : String) : Json → PyResult Bool
  | .obj kvs => .ok (lookupKey kvs key).isSome
  | .arr items => .ok (items.any (fun e => jsonEqStr e key))
  | .str s => .ok (listIsSubstr key.toList s.toList)
  | _ => .error .typeError

/-- Python subscript `j[key]` for a string `key`: dict lookup
(`KeyError` when absent); lists and strings reject string indices, and
other values are not subscriptable (`TypeError`). -/
def pyIndexStr (j : Json) (key : String) : PyResult Json :=
  match j with
  | .obj kvs =>
    match lookupKey kvs key with
    | some v => .ok v
    | none => .error .keyError
  | _ => .error .typeError

/-- Python item assignment `j[key] = v` for a string `key`: only dicts
support it; everything else raises `TypeError`. -/
def pySetStr (j : Json) (key : String) (v : Json) : PyResult Json :=
  match j with
  | .obj kvs => .ok (.obj (setKey kvs key v))
  | _ => .error .typeError

/-- Python iteration `for e in j`: a list yields its elements, a string
its characters (as one-character strings), a dict its keys; numbers,
booleans and `None` are not iterable (`TypeError`). -/
def pyIterElems : Json → PyResult (List Json)
  | .arr items => .ok items
  | .str s => .ok (s.toList.map (fun c => .str (String.mk [c])))
  | .obj kvs => .ok (kvs.map (fun kv => .str kv.1))
  | _ => .error .typeError

/-- Python `float(x)` on a JSON value: numbers pass through, booleans
become 0/1, strings go through the (abstracted) numeric-literal parser
`stf` (`none` = `ValueError`); lists, dicts and `None` raise `TypeError`. -/
def pyFloat (stf : String → Option ℚ) : Json → PyResult ℚ
  | .num q => .ok q
  | .bool b => .ok (if b then 1 else 0)
  | .str s =>
    match stf s with
    | some q => .ok q
    | none => .error .valueError
  | .null => .error .typeError
  | .arr _ => .error .typeError
  | .obj _ => .error .typeError

/-- The transition-effect taxonomy, `valid_effects` at `main.py:209`. -/
def validEffects : List String :=
  ["hard_cut", "crossfade", "whip_pan", "zoom_cut", "speed_ramp",
   "shake_transition", "flash_frame", "reverse_effect", "match_cut", "unknown"]

/-- The caption-effect taxonomy, `valid_caption_effects` at `main.py:220`. -/
def validCaptionEffects : List String :=
  ["typewriter", "pop_up", "fade_in", "slide_in", "kinetic_typography",
   "glitch_text", "neon_glow", "3d_text", "handwritten", "bounce",
   "shake", "highlight", "word_by_word", "scale_in", "rotate_in",
   "split_text", "stroke_reveal", "color_wipe", "none"]

/-- Python `e in listOfStrings`: true exactly when `e` is one of the
strings (Python `==` between a string and a non-string is `False`). -/
def jsonInStrList (e : Json) (l : List String) : Bool :=
  l.any (fun s => jsonEqStr e s)

/-- The required-field loop at `main.py:203`: checks `effect`,
`confidence`, `description` in order, raising `ValueError` at the first
missing one. -/
def checkRequired (j : Json) : PyResult Unit := do
  let p1 ← pyContains "effect" j
  if p1 then
    let p2 ← pyContains "confidence" j
    if p2 then
      let p3 ← pyContains "description" j
      if p3 then pure () else throw .valueError
    else throw .valueError
  else throw .valueError

/-- `main.py:213`: if `result["effect"]` is not in the transition
taxonomy, assign `"unknown"`; otherwise leave the object untouched. -/
def normEffect (j : Json) : PyResult Json := do
  let eff ← pyIndexStr j "effect"
  if jsonInStrList eff validEffects then pure j
  else pySetStr j "effect" (.str "unknown")

/-- `max(0.0, min(1.0, x))` at `main.py:217`. -/
def clampQ (q : ℚ) : ℚ := max 0 (min 1 q)

/-- `main.py:217`: coerce `result["confidence"]` to float and clamp it. -/
def normConfidence (stf : String → Option ℚ) (j : Json) : PyResult Json := do
  let c ← pyIndexStr j "confidence"
  let q ← pyFloat stf c
  pySetStr j "confidence" (.num (clampQ q))

/-- The sub-object assigned at `main.py:228` when `caption_effects` is
absent. Note the `description` default is the string
`"No text effects analyzed"`, not the empty string. -/
def defaultCaption : Json :=
  .obj [("detected", .bool false),
        ("effects", .arr [.str "none"]),
        ("text_content", .str ""),
        ("description", .str "No text effects analyzed")]

/-- Python `x == ["none"]` for a JSON value `x`: a one-element list whose
element is the string `"none"`. -/
def pyEqListNone : Json → Bool
  | .arr [e] => jsonEqStr e "none"
  | _ => false

/-- The list comprehension with `or ["none"]` fallback at `main.py:238`:
keep the members of the caption taxonomy; an empty (falsy) result is
replaced by `["none"]`. -/
def pyFilterOrNone (items : List Json) : List Json :=
  let filtered := items.filter (fun e => jsonInStrList e validCaptionEffects)
  if filtered.isEmpty then [Json.str "none"] else filtered

/-- `main.py:237`: if the caption sub-object has an `effects` entry,
iterate it and assign the filtered list; otherwise assign `["none"]`. -/
def normCapEffects (cap : Json) : PyResult Json := do
  let hasEff ← pyContains "effects" cap
  if hasEff then do
    let effVal ← pyIndexStr cap "effects"
    let items ← pyIterElems effVal
    pySetStr cap "effects" (.arr (pyFilterOrNone items))
  else
    pySetStr cap "effects" (.arr [Json.str "none"])

/-- `main.py:245`: when `detected` is absent, default it to
`caption["effects"] != ["none"]` (read back from the just-assigned
entry). -/
def normCapDetected (cap : Json) : PyResult Json := do
  let hasDet ← pyContains "detected" cap
  if hasDet then pure cap
  else do
    let effNow ← pyIndexStr cap "effects"
    pySetStr cap "detected" (.bool (!pyEqListNone effNow))

/-- `main.py:248` and `main.py:251`: when `key` is absent, default it to
the empty string. -/
def normCapDefaultStr (key : String) (cap : Json) : PyResult Json := do
  let has ← pyContains key cap
  if has then pure cap else pySetStr cap key (.str "")

/-- The `else` block at `main.py:234`: the four repair statements on the
caption sub-object, in source order. -/
def normCapInner (cap : Json) : PyResult Json := do
  let c1 ← normCapEffects cap
  let c2 ← normCapDetected c1
  let c3 ← normCapDefaultStr "text_content" c2
  normCapDefaultStr "description" c3

/-- `main.py:227`: synthesize the default caption sub-object when
`caption_effects` is absent, else repair the present one with
`normCapInner`; the repaired value is stored back under
`caption_effects` (the source mutates the aliased dict in place, which
for the returned object is the same as this functional re-assignment). -/
def normCaption (j : Json) : PyResult Json := do
  let present ← pyContains "caption_effects" j
  if present then do
    let cap ← pyIndexStr j "caption_effects"
    let cap2 ← normCapInner cap
    pySetStr j "caption_effects" cap2
  else
    pySetStr j "caption_effects" defaultCaption

/-- `main.py:254`: stamp `result["model_used"]`. -/
def addModel (j : Json) : PyResult Json :=
  pySetStr j "model_used" (.str "gemini-latest")

/-- The whole normalization block, `main.py:200` to `main.py:254`:
required-field check, effect coercion, confidence clamp, caption repair,
model stamp, in source order on the (functionally threaded) dict. -/
def normalizeResult (stf : String → Option ℚ) (j : Json) : PyResult Json := do
  checkRequired j
  let j1 ← normEffect j
  let j2 ← normConfidence stf j1
  let j3 ← normCaption j2
  addModel j3

/-- The whitespace characters removed by Python `str.strip()` (the ASCII
ones; the handler only ever meets spaces and newlines). -/
def pyIsSpace (c : Char) : Bool :=
  c = ' ' || c = '\t' || c = '\n' || c = '\r' || c = '\x0b' || c = '\x0c'

/-- Python `str.lstrip()`. -/
def lstripChars (l : List Char) : List Char := l.dropWhile pyIsSpace

/-- Python `str.rstrip()`. -/
def rstripChars (l : List Char) : List Char := (l.reverse.dropWhile pyIsSpace).reverse

/-- Python `str.strip()`. -/
def stripChars (l : List Char) : List Char := rstripChars (lstripChars l)

/-- The fenced-code-block opener checked at `main.py:194`. -/
def fenceOpen : List Char := ['\x60', '\x60', '\x60', 'j', 's', 'o', 'n']

/-- The fenced-code-block closer checked at `main.py:196`. -/
def fenceClose : List Char := ['\x60', '\x60', '\x60']

/-- Python slice `s[:-n]`. -/
def dropRightPy (n : Nat) (l : List Char) : List Char := l.take (l.length - n)

/-- `main.py:192` to `main.py:198`: strip surrounding whitespace, drop a
leading 7-character JSON fence opener and a trailing 3-character fence
closer when present, strip again. -/
def extractText (s : List Char) : List Char :=
  let t := stripChars s
  let t := if fenceOpen.isPrefixOf t then t.drop 7 else t
  let t := if fenceClose.isSuffixOf t then dropRightPy 3 t else t
  stripChars t

/-- The provider-side file states observed by the handler
(`video_file.state.name`). -/
inductive FileState where
  | PROCESSING
  | ACTIVE
  | FAILED
deriving DecidableEq

/-- Outcome of the readiness-polling loop: `ready i s` means the loop
exited after the state query with index `i` reported the non-PROCESSING
state `s`; `timedOut i` means query `i` still reported PROCESSING with the
wait budget exhausted, raising HTTP 408. In both cases `i + 1` state
queries were made in total (query 0 is the state attached to the
`genai.upload_file` result; query `i + 1` is the i-th `genai.get_file`). -/
inductive PollOut where
  | ready (idx : Nat) (s : FileState)
  | timedOut (idx : Nat)
deriving DecidableEq

/-- `max_wait_time` at `main.py:107` (seconds). -/
def maxWaitTime : Nat := 120

/-- `wait_interval` at `main.py:108` (seconds). -/
def waitInterval : Nat := 2

/-- The polling loop at `main.py:111`: while the last-queried state is
PROCESSING, raise 408 if the elapsed wait has reached the budget, else
sleep, increment the wait and re-query. Since `elapsed_time` starts at 0
and grows by `wait_interval = 2` per iteration, it is determined by the
query index: `elapsed_time = 2 * idx` when query `idx` is examined, and
the timeout test `elapsed_time >= 120` is `stepsLeft = 0` for
`stepsLeft = (maxWaitTime - elapsed_time) / waitInterval`, the number of
sleeps still allowed.  `states` gives the state reported by each query. -/
def pollSteps (states : Nat → FileState) : Nat → Nat → PollOut
  | idx, 0 =>
    match states idx with
    | .PROCESSING => .timedOut idx
    | s => .ready idx s
  | idx, n + 1 =>
    match states idx with
    | .PROCESSING => pollSteps states (idx + 1) n
    | s => .ready idx s

/-- The poll loop as entered at `main.py:111`: first query index 0, full
budget of `120 / 2 = 60` sleeps. -/
def pollProvider (states : Nat → FileState) : PollOut :=
  pollSteps states 0 (maxWaitTime / waitInterval)

/-- The HTTP outcome of one `/classify` request, by source branch:
`success` is the 200 return at `main.py:257`; `badExtension400` the raise
at `main.py:88`; `timeout408` at `main.py:113`; `processingFailed400` at
`main.py:123`; `parseError500` the `except (json.JSONDecodeError,
ValueError)` handler at `main.py:262` ("Failed to parse classification
result from AI model"); `generic500` the outer `except Exception` at
`main.py:271` ("Video processing failed: ..."). -/
inductive Resp where
  | success (body : Json)
  | badExtension400
  | processingFailed400
  | timeout408
  | parseError500
  | generic500

/-- `main.py:189` to `main.py:265`: extract the completion text, parse it
with `json.loads` (abstracted as `loads`; `none` = `JSONDecodeError`),
normalize, and map exceptions to responses: `JSONDecodeError`/`ValueError`
to the 500 parse error, any other exception to the generic 500. -/
def respond (loads : List Char → Option Json) (stf : String → Option ℚ)
    (completion : List Char) : Resp :=
  match loads (extractText completion) with
  | none => .parseError500
  | some j =>
    match normalizeResult stf j with
    | .ok r => .success r
    | .error .valueError => .parseError500
    | .error _ => .generic500

/-- The external Gemini provider as seen by one request: the file state
reported by each successive state query, and the raw completion text of
`generate_content`. -/
structure ProviderEnv where
  states : Nat → FileState
  completion : List Char

/-- Observable outcome of one `/classify` request: the HTTP response, the
number of provider state queries made, whether `generate_content` was
reached, whether the temporary upload file was created, and whether it
still exists on disk after the request completes. -/
structure RunResult where
  resp : Resp
  stateQueries : Nat
  analysisCalled : Bool
  tempCreated : Bool
  tempExistsAfter : Bool

/-- Python `str.lower()` (ASCII case folding suffices here). -/
def pyLower (l : List Char) : List Char := l.map Char.toLower

/-- Index of the last occurrence of `c` in `l` (Python `str.rfind`,
`none` for `-1`). -/
def rfindIdx : List Char → Char → Option Nat
  | [], _ => none
  | a :: rest, c =>
    match rfindIdx rest c with
    | some i => some (i + 1)
    | none => if a = c then some 0 else none

/-- The extension part of `os.path.splitext` (posix, `sep = '/'`): the
suffix from the last dot, provided that dot comes after the last slash
and the basename has at least one non-dot character before it (leading
dots never start an extension). -/
def splitextExt (p : List Char) : List Char :=
  match rfindIdx p '.' with
  | none => []
  | some di =>
    let start := match rfindIdx p '/' with
      | none => 0
      | some si => si + 1
    if start ≤ di then
      if ((p.drop start).take (di - start)).any (fun c => c ≠ '.') then
        p.drop di
      else []
    else []

/-- `allowed_extensions` at `main.py:85`. -/
def allowedExtensions : List (List Char) :=
  [['.', 'm', 'p', '4'], ['.', 'm', 'o', 'v'], ['.', 'a', 'v', 'i']]

/-- `main.py:86`: extension of the lower-cased filename, tested against
the allow-list. -/
def extOk (filename : List Char) : Bool :=
  allowedExtensions.contains (splitextExt (pyLower filename))

/-- The `/classify` handler `classify_video_effect` (`main.py:74`):
validate the extension (reject with 400 before any provider interaction),
create the temporary upload file, upload and poll the provider, reject on
FAILED/timeout, else run the analysis and normalize the completion.

The temporary file is created at `main.py:94` with
`tempfile.NamedTemporaryFile(suffix=file_ext, delete=False)`; because of
`delete=False` closing it does not remove it, and no exit path of the
handler calls `os.unlink`/`os.remove` (there is no `finally` block), so
on every path that creates the file it still exists afterwards:
`tempExistsAfter = tempCreated`. -/
def classify (loads : List Char → Option Json) (stf : String → Option ℚ)
    (env : ProviderEnv) (filename : List Char) : RunResult :=
  if extOk filename then
    match pollProvider env.states with
    | .timedOut i =>
      { resp := .timeout408, stateQueries := i + 1, analysisCalled := false,
        tempCreated := true, tempExistsAfter := true }
    | .ready i s =>
      if s = .FAILED then
        { resp := .processingFailed400, stateQueries := i + 1,
          analysisCalled := false, tempCreated := true, tempExistsAfter := true }
      else
        { resp := respond loads stf env.completion, stateQueries := i + 1,
          analysisCalled := true, tempCreated := true, tempExistsAfter := true }
  else
    { resp := .badExtension400, stateQueries := 0, analysisCalled := false,
      tempCreated := false, tempExistsAfter := false }

/-- A `float(...)` oracle for concrete test inputs: the handler under test
never applies `float` to a string in them, so the oracle is never
consulted and `fun _ => none` is as good as any. -/
def stfNone : String → Option ℚ := fun _ => none

/-- The parsed object used to witness C10: a well-formed result carrying
the extra top-level key `zebra`. -/
def objC10 : List (String × Json) :=
  [("effect", .str "hard_cut"), ("confidence", .num (9/10)),
   ("description", .str "x"), ("zebra", .num 7)]

/-- A `json.loads` oracle returning `objC10` for any text. -/
def loadsC10 : List Char → Option Json := fun _ => some (.obj objC10)

/-- The parsed object used to witness C7, with `confidence = q`. -/
def kvsConf (q : ℚ) : List (String × Json) :=
  [("effect", .str "hard_cut"), ("confidence", .num q), ("description", .str "x")]

/-- The normalized result for `kvsConf`, with `confidence = x`. -/
def rConf (x : ℚ) : Json :=
  .obj [("effect", .str "hard_cut"), ("confidence", .num x), ("description", .str "x"),
        ("caption_effects", defaultCaption), ("model_used", .str "gemini-latest")]

/-- A parsed object carrying a `caption_effects` sub-object whose
`effects` list mixes a taxonomy member with a stray value. -/
def kvsCapC2 : List (String × Json) :=
  [("effect", .str "hard_cut"), ("confidence", .num (1/2)),
   ("description", .str "x"),
   ("caption_effects", .obj [("effects", .arr [.str "typewriter", .str "bogus"])])]

/-- The caption sub-object the normalizer produces for `kvsCapC2`. -/
def capC2res : List (String × Json) :=
  [("effects", .arr (pyFilterOrNone [.str "typewriter", .str "bogus"])),
   ("detected", .bool (!pyEqListNone (.arr (pyFilterOrNone [.str "typewriter", .str "bogus"])))),
   ("text_content", .str ""), ("description", .str "")]

/-- The full normalized result for `kvsCapC2`. -/
def rCapC2 : Json :=
  .obj [("effect", .str "hard_cut"), ("confidence", .num (clampQ (1/2))),
        ("description", .str "x"), ("caption_effects", .obj capC2res),
        ("model_used", .str "gemini-latest")]

/-- The strict output schema of a fully normalized ClassificationResult
(spec section 3): `effect` a taxonomy string, `confidence` a number in
[0, 1], `description` present, `caption_effects` a sub-object with a
non-empty taxonomy-only `effects` list and `detected` / `text_content` /
`description` present, and the `model_used` stamp. -/
def normalizedResult (r : Json) : Prop :=
  (∃ s, getKeyJ r "effect" = some (.str s) ∧ s ∈ validEffects) ∧
  (∃ q, getKeyJ r "confidence" = some (.num q) ∧ 0 ≤ q ∧ q ≤ 1) ∧
  (getKeyJ r "description").isSome ∧
  (∃ ckvs, getKeyJ r "caption_effects" = some (.obj ckvs) ∧
     (∃ es, lookupKey ckvs "effects" = some (.arr es) ∧ es ≠ [] ∧
        ∀ e ∈ es, jsonInStrList e validCaptionEffects = true) ∧
     (lookupKey ckvs "detected").isSome ∧
     (lookupKey ckvs "text_content").isSome ∧
     (lookupKey ckvs "description").isSome) ∧
  getKeyJ r "model_used" = some (.str "gemini-latest")

/-- A provider that is immediately ACTIVE and returns an empty
completion. -/
def envC5 : ProviderEnv := { states := fun _ => .ACTIVE, completion := [] }

/-- A `json.loads` oracle that always fails (`json.JSONDecodeError`). -/
def loadsNone : List Char → Option Json := fun _ => none

/-- A provider that reports PROCESSING for the first two state queries
and ACTIVE from the third on. -/
def envC3 : ProviderEnv :=
  { states := fun i => if i < 2 then .PROCESSING else .ACTIVE, completion := [] }

/-- A provider that reports PROCESSING on every state query. -/
def envC4 : ProviderEnv := { states := fun _ => .PROCESSING, completion := [] }

/-- A provider whose upload immediately reports FAILED. -/
def envFailed : ProviderEnv := { states := fun _ => .FAILED, completion := [] }

/-- A completion text wrapped in the markdown fence the model tends to
emit: the JSON-tagged opener at the start, the closer at the end, each
separated from the payload by a newline. -/
def fenceWrap (t : List Char) : List Char :=
  fenceOpen ++ ('\n' :: t) ++ ('\n' :: fenceClose)

/-- The claim's example JSON text (braces written as escapes). -/
def jsonTextC9 : List Char :=
  "\x7b\"effect\":\"hard_cut\",\"confidence\":0.9,\"description\":\"x\"\x7d".toList

/-! ### Basic lemmas about the embedding -/

theorem pyBind_ok {α β : Type} {m : PyResult α} {g : α → PyResult β} {out : β}
    (hok : (m >>= g) = .ok out) : ∃ v, m = .ok v ∧ g v = .ok out := by
  cases m with
  | error ex => simp [Bind.bind, Except.bind] at hok
  | ok v =>
    refine ⟨v, rfl, ?_⟩
    simpa [Bind.bind, Except.bind] using hok

theorem lookupKey_setKey (kvs : List (String × Json)) (k k2 : String) (v : Json) :
    lookupKey (setKey kvs k v) k2 = if k = k2 then some v else lookupKey kvs k2 := by
  induction kvs with
  | nil => simp [setKey, lookupKey]
  | cons a rest ih =>
    obtain ⟨ak, av⟩ := a
    by_cases hak : ak = k
    · subst hak
      simp only [setKey, if_pos rfl, lookupKey]
      by_cases hk2 : ak = k2 <;> simp [hk2]
    · simp only [setKey, if_neg hak, lookupKey]
      by_cases hk2 : ak = k2
      · subst hk2
        have : ¬ (k = ak) := fun he => hak he.symm
        simp [this]
      · simp [hk2, ih]

theorem lookupKey_setKey_same (kvs : List (String × Json)) (k : String) (v : Json) :
    lookupKey (setKey kvs k v) k = some v := by
  simp [lookupKey_setKey]

theorem lookupKey_setKey_other (kvs : List (String × Json)) {k k2 : String} (v : Json)
    (h : k ≠ k2) : lookupKey (setKey kvs k v) k2 = lookupKey kvs k2 := by
  simp [lookupKey_setKey, h]

theorem pySetStr_ok {j j2 : Json} {k : String} {v : Json} (h : pySetStr j k v = .ok j2) :
    ∃ kvs, j = .obj kvs ∧ j2 = .obj (setKey kvs k v) := by
  cases j <;> simp [pySetStr] at h
  exact ⟨_, rfl, h.symm⟩

theorem pyIndexStr_ok {j v : Json} {k : String} (h : pyIndexStr j k = .ok v) :
    ∃ kvs, j = .obj kvs ∧ lookupKey kvs k = some v := by
  cases j <;> simp [pyIndexStr] at h
  case obj kvs =>
    cases hl : lookupKey kvs k with
    | none => simp [hl] at h
    | some w => simp [hl] at h; exact ⟨kvs, rfl, by rw [hl, h]⟩

theorem addModel_obj (kvs : List (String × Json)) :
    addModel (.obj kvs) = .ok (.obj (setKey kvs "model_used" (.str "gemini-latest"))) := rfl

theorem checkRequired_obj (kvs : List (String × Json)) :
    checkRequired (.obj kvs) =
      if (lookupKey kvs "effect").isSome then
        if (lookupKey kvs "confidence").isSome then
          if (lookupKey kvs "description").isSome then .ok () else .error .valueError
        else .error .valueError
      else .error .valueError := by
  cases h1 : (lookupKey kvs "effect").isSome <;>
    cases h2 : (lookupKey kvs "confidence").isSome <;>
      cases h3 : (lookupKey kvs "description").isSome <;>
        simp [checkRequired, pyContains, h1, h2, h3, Bind.bind, Except.bind, throw,
          throwThe, MonadExceptOf.throw, pure, Except.pure]

theorem normEffect_obj (kvs : List (String × Json)) :
    normEffect (.obj kvs) =
      match lookupKey kvs "effect" with
      | none => .error .keyError
      | some eff =>
        if jsonInStrList eff validEffects then .ok (.obj kvs)
        else .ok (.obj (setKey kvs "effect" (.str "unknown"))) := by
  cases h : lookupKey kvs "effect" with
  | none => simp [normEffect, pyIndexStr, h, Bind.bind, Except.bind]
  | some eff =>
    cases h2 : jsonInStrList eff validEffects <;>
      simp [normEffect, pyIndexStr, h, h2, Bind.bind, Except.bind, pySetStr, pure, Except.pure]

theorem normConfidence_obj (stf : String → Option ℚ) (kvs : List (String × Json)) :
    normConfidence stf (.obj kvs) =
      match lookupKey kvs "confidence" with
      | none => .error .keyError
      | some c =>
        match pyFloat stf c with
        | .error e => .error e
        | .ok q => .ok (.obj (setKey kvs "confidence" (.num (clampQ q)))) := by
  cases h : lookupKey kvs "confidence" with
  | none => simp [normConfidence, pyIndexStr, h, Bind.bind, Except.bind]
  | some c =>
    cases h2 : pyFloat stf c <;>
      simp [normConfidence, pyIndexStr, h, h2, Bind.bind, Except.bind, pySetStr]

theorem normCapEffects_obj (ckvs : List (String × Json)) :
    normCapEffects (.obj ckvs) =
      match lookupKey ckvs "effects" with
      | none => .ok (.obj (setKey ckvs "effects" (.arr [Json.str "none"])))
      | some effVal =>
        match pyIterElems effVal with
        | .error e => .error e
        | .ok items => .ok (.obj (setKey ckvs "effects" (.arr (pyFilterOrNone items)))) := by
  cases h : lookupKey ckvs "effects" with
  | none => simp [normCapEffects, pyContains, pyIndexStr, h, Bind.bind, Except.bind, pySetStr]
  | some effVal =>
    cases h2 : pyIterElems effVal <;>
      simp [normCapEffects, pyContains, pyIndexStr, h, h2, Bind.bind, Except.bind, pySetStr]

theorem normCapDetected_obj (ckvs : List (String × Json)) :
    normCapDetected (.obj ckvs) =
      match lookupKey ckvs "detected" with
      | some _ => .ok (.obj ckvs)
      | none =>
        match lookupKey ckvs "effects" with
        | none => .error .keyError
        | some eff => .ok (.obj (setKey ckvs "detected" (.bool (!pyEqListNone eff)))) := by
  cases h : lookupKey ckvs "detected" with
  | some w => simp [normCapDetected, pyContains, h, Bind.bind, Except.bind, pure, Except.pure]
  | none =>
    cases h2 : lookupKey ckvs "effects" with
    | none => simp [normCapDetected, pyContains, pyIndexStr, h, h2, Bind.bind, Except.bind]
    | some eff =>
      simp [normCapDetected, pyContains, pyIndexStr, h, h2, Bind.bind, Except.bind, pySetStr]

theorem normCapDefaultStr_obj (key : String) (ckvs : List (String × Json)) :
    normCapDefaultStr key (.obj ckvs) =
      match lookupKey ckvs key with
      | some _ => .ok (.obj ckvs)
      | none => .ok (.obj (setKey ckvs key (.str ""))) := by
  cases h : lookupKey ckvs key with
  | some w => simp [normCapDefaultStr, pyContains, h, Bind.bind, Except.bind, pure, Except.pure]
  | none => simp [normCapDefaultStr, pyContains, h, Bind.bind, Except.bind, pySetStr]

theorem normCaption_obj (kvs : List (String × Json)) :
    normCaption (.obj kvs) =
      match lookupKey kvs "caption_effects" with
      | none => .ok (.obj (setKey kvs "caption_effects" defaultCaption))
      | some cap =>
        match normCapInner cap with
        | .error e => .error e
        | .ok cap2 => .ok (.obj (setKey kvs "caption_effects" cap2)) := by
  cases h : lookupKey kvs "caption_effects" with
  | none => simp [normCaption, pyContains, h, Bind.bind, Except.bind, pySetStr]
  | some cap =>
    cases h2 : normCapInner cap <;>
      simp [normCaption, pyContains, pyIndexStr, h, h2, Bind.bind, Except.bind, pySetStr]

theorem normalizeResult_ok_decomp {stf : String → Option ℚ} {j r : Json}
    (h : normalizeResult stf j = .ok r) :
    checkRequired j = .ok () ∧
    ∃ j1 j2 j3, normEffect j = .ok j1 ∧ normConfidence stf j1 = .ok j2 ∧
      normCaption j2 = .ok j3 ∧ addModel j3 = .ok r := by
  unfold normalizeResult at h
  obtain ⟨u, hu, h⟩ := pyBind_ok h
  obtain ⟨j1, h1, h⟩ := pyBind_ok h
  obtain ⟨j2, h2, h⟩ := pyBind_ok h
  obtain ⟨j3, h3, h⟩ := pyBind_ok h
  cases u
  exact ⟨hu, j1, j2, j3, h1, h2, h3, h⟩

theorem jsonEqStr_true {e : Json} {t : String} (h : jsonEqStr e t = true) : e = .str t := by
  cases e <;> simp [jsonEqStr] at h
  simp [h]

theorem jsonInStrList_true {e : Json} {l : List String} (h : jsonInStrList e l = true) :
    ∃ s, e = .str s ∧ s ∈ l := by
  unfold jsonInStrList at h
  obtain ⟨x, hx, he⟩ := List.any_eq_true.mp h
  exact ⟨x, jsonEqStr_true he, hx⟩

theorem normEffect_ok_src {j j1 : Json} (h : normEffect j = .ok j1) :
    ∃ kvs, j = .obj kvs := by
  unfold normEffect at h
  obtain ⟨eff, he, _⟩ := pyBind_ok h
  obtain ⟨kvs, hj, _⟩ := pyIndexStr_ok he
  exact ⟨kvs, hj⟩

theorem normEffect_ok_inv {kvs : List (String × Json)} {j1 : Json}
    (h : normEffect (.obj kvs) = .ok j1) :
    ∃ kvs1, j1 = .obj kvs1 ∧
      (∀ k, k ≠ "effect" → lookupKey kvs1 k = lookupKey kvs k) ∧
      ∃ s, lookupKey kvs1 "effect" = some (.str s) ∧ s ∈ validEffects := by
  rw [normEffect_obj] at h
  cases hl : lookupKey kvs "effect" with
  | none => rw [hl] at h; exact absurd h (by simp)
  | some eff =>
    simp only [hl] at h
    by_cases hin : jsonInStrList eff validEffects = true
    · rw [if_pos hin] at h
      obtain ⟨s, rfl, hs⟩ := jsonInStrList_true hin
      refine ⟨kvs, (Except.ok.inj h).symm, fun k _ => rfl, s, hl, hs⟩
    · rw [if_neg hin] at h
      refine ⟨setKey kvs "effect" (.str "unknown"), (Except.ok.inj h).symm,
        fun k hk => lookupKey_setKey_other kvs _ (fun he => hk he.symm),
        "unknown", lookupKey_setKey_same kvs _ _, by simp [validEffects]⟩

theorem normConfidence_ok_inv {stf : String → Option ℚ} {kvs : List (String × Json)}
    {j2 : Json} (h : normConfidence stf (.obj kvs) = .ok j2) :
    ∃ q, j2 = .obj (setKey kvs "confidence" (.num (clampQ q))) := by
  rw [normConfidence_obj] at h
  cases hl : lookupKey kvs "confidence" with
  | none => rw [hl] at h; exact absurd h (by simp)
  | some c =>
    simp only [hl] at h
    cases hf : pyFloat stf c with
    | error e => simp only [hf] at h; exact absurd h (by simp)
    | ok q => simp only [hf] at h; exact ⟨q, (Except.ok.inj h).symm⟩

theorem normCaption_ok_inv {kvs : List (String × Json)} {j3 : Json}
    (h : normCaption (.obj kvs) = .ok j3) :
    ∃ cap, j3 = .obj (setKey kvs "caption_effects" cap) ∧
      ((lookupKey kvs "caption_effects" = none ∧ cap = defaultCaption) ∨
       (∃ cap0, lookupKey kvs "caption_effects" = some cap0 ∧
          normCapInner cap0 = .ok cap)) := by
  rw [normCaption_obj] at h
  cases hl : lookupKey kvs "caption_effects" with
  | none =>
    rw [hl] at h
    exact ⟨defaultCaption, (Except.ok.inj h).symm, Or.inl ⟨rfl, rfl⟩⟩
  | some cap0 =>
    simp only [hl] at h
    cases hi : normCapInner cap0 with
    | error e => simp only [hi] at h; exact absurd h (by simp)
    | ok cap => simp only [hi] at h; exact ⟨cap, (Except.ok.inj h).symm, Or.inr ⟨cap0, rfl, hi⟩⟩

theorem addModel_ok_inv {kvs : List (String × Json)} {r : Json}
    (h : addModel (.obj kvs) = .ok r) :
    r = .obj (setKey kvs "model_used" (.str "gemini-latest")) := by
  rw [addModel_obj] at h
  exact (Except.ok.inj h).symm

/-! ### Claim theorems -/

/-- C10: for every Provider completion that parses as a JSON object and
passes normalization, any top-level key of that object other than
`effect`, `confidence`, `description`, `caption_effects` and `model_used`
is carried through unchanged into the HTTP 200 response body: the
normalizer mutates and returns the parsed object rather than building a
fresh object restricted to the ClassificationResult schema. -/
theorem c10_extra_keys_preserved
    (loads : List Char → Option Json) (stf : String → Option ℚ)
    (completion : List Char) (kvs : List (String × Json)) (r : Json) (k : String)
    (hloads : loads (extractText completion) = some (.obj kvs))
    (hresp : respond loads stf completion = .success r)
    (hk1 : k ≠ "effect") (hk2 : k ≠ "confidence") (_hk3 : k ≠ "description")
    (hk4 : k ≠ "caption_effects") (hk5 : k ≠ "model_used") :
    getKeyJ r k = lookupKey kvs k := by
  unfold respond at hresp
  rw [hloads] at hresp
  cases hn : normalizeResult stf (.obj kvs) with
  | error e =>
    simp only [hn] at hresp
    cases e <;> exact absurd hresp (by simp)
  | ok r0 =>
    simp only [hn] at hresp
    have hr0 : r0 = r := by
      have := hresp
      simp only [Resp.success.injEq] at this
      exact this
    subst hr0
    obtain ⟨hcheck, j1, j2, j3, h1, h2, h3, h4⟩ := normalizeResult_ok_decomp hn
    obtain ⟨kvs1, rfl, hpres1, _⟩ := normEffect_ok_inv h1
    obtain ⟨q, rfl⟩ := normConfidence_ok_inv h2
    obtain ⟨cap, rfl, _⟩ := normCaption_ok_inv h3
    rw [addModel_ok_inv h4]
    simp only [getKeyJ]
    rw [lookupKey_setKey_other _ _ (Ne.symm hk5), lookupKey_setKey_other _ _ (Ne.symm hk4),
      lookupKey_setKey_other _ _ (Ne.symm hk2)]
    exact hpres1 k hk1

/-- Witness for C10 at a concrete request: the response is a 200 whose
body still maps `zebra` to `7`. -/
theorem c10_witness :
    respond loadsC10 stfNone [] = .success (Json.obj
      [("effect", .str "hard_cut"), ("confidence", .num (clampQ (9/10))),
       ("description", .str "x"), ("zebra", .num 7),
       ("caption_effects", defaultCaption), ("model_used", .str "gemini-latest")]) ∧
    getKeyJ (Json.obj
      [("effect", .str "hard_cut"), ("confidence", .num (clampQ (9/10))),
       ("description", .str "x"), ("zebra", .num 7),
       ("caption_effects", defaultCaption), ("model_used", .str "gemini-latest")]) "zebra"
      = lookupKey objC10 "zebra" :=
  ⟨rfl, c10_extra_keys_preserved loadsC10 stfNone [] objC10 _ "zebra" rfl rfl
    (by decide) (by decide) (by decide) (by decide) (by decide)⟩

/-- C7: whenever the parsed object's `confidence` is a JSON number `q`
and normalization succeeds, the result's `confidence` is `q` saturated
into [0, 1]; and (second conjunct) an object with the three required
fields and a numeric `confidence` is never rejected, whatever the value
of `q` — out-of-range values included. -/
theorem c7_confidence_clamped :
    (∀ (stf : String → Option ℚ) (kvs : List (String × Json)) (q : ℚ) (r : Json),
       lookupKey kvs "confidence" = some (.num q) →
       normalizeResult stf (.obj kvs) = .ok r →
       getKeyJ r "confidence" = some (.num (max 0 (min 1 q)))) ∧
    (∀ (stf : String → Option ℚ) (q : ℚ) (e d : Json),
       (normalizeResult stf
         (.obj [("effect", e), ("confidence", .num q), ("description", d)])).isOk = true) := by
  constructor
  · intro stf kvs q r hconf hnorm
    obtain ⟨hcheck, j1, j2, j3, h1, h2, h3, h4⟩ := normalizeResult_ok_decomp hnorm
    obtain ⟨kvs1, rfl, hpres1, _⟩ := normEffect_ok_inv h1
    have hconf1 : lookupKey kvs1 "confidence" = some (.num q) := by
      rw [hpres1 "confidence" (by decide)]; exact hconf
    rw [normConfidence_obj] at h2
    simp only [hconf1, pyFloat] at h2
    have hj2 : j2 = .obj (setKey kvs1 "confidence" (.num (clampQ q))) :=
      (Except.ok.inj h2).symm
    subst hj2
    obtain ⟨cap, rfl, _⟩ := normCaption_ok_inv h3
    rw [addModel_ok_inv h4]
    simp only [getKeyJ]
    rw [lookupKey_setKey_other _ _ (by decide), lookupKey_setKey_other _ _ (by decide),
      lookupKey_setKey_same]
    rfl
  · intro stf q e d
    by_cases hin : jsonInStrList e validEffects = true
    · simp [normalizeResult, Bind.bind, Except.bind, checkRequired_obj, normEffect_obj,
        normConfidence_obj, normCaption_obj, addModel_obj, lookupKey, setKey, pyFloat, hin,
        Except.isOk, Except.toBool]
    · simp [normalizeResult, Bind.bind, Except.bind, checkRequired_obj, normEffect_obj,
        normConfidence_obj, normCaption_obj, addModel_obj, lookupKey, setKey, pyFloat, hin,
        Except.isOk, Except.toBool]

/-- Witness for C7 at the three inputs named by the claim: `-0.3`, `0.5`
and `1.7` normalize to `0`, `0.5` and `1`. -/
theorem c7_witness :
    getKeyJ (rConf (clampQ (-3/10))) "confidence" = some (.num 0) ∧
    getKeyJ (rConf (clampQ (1/2))) "confidence" = some (.num (1/2)) ∧
    getKeyJ (rConf (clampQ (17/10))) "confidence" = some (.num 1) := by
  have h1 := c7_confidence_clamped.1 stfNone (kvsConf (-3/10)) (-3/10)
    (rConf (clampQ (-3/10))) rfl rfl
  have h2 := c7_confidence_clamped.1 stfNone (kvsConf (1/2)) (1/2)
    (rConf (clampQ (1/2))) rfl rfl
  have h3 := c7_confidence_clamped.1 stfNone (kvsConf (17/10)) (17/10)
    (rConf (clampQ (17/10))) rfl rfl
  refine ⟨?_, ?_, ?_⟩
  · rw [h1]; norm_num
  · rw [h2]; norm_num
  · rw [h3]; norm_num

/-- C8: whenever the parsed object's `effect` value is not a member of
the ten-element transition taxonomy and normalization succeeds, the
result's `effect` is the string `"unknown"`; and (second conjunct) the
effect coercion never raises: an object with the three required fields
and numeric confidence normalizes successfully for every `effect` value,
taxonomy member or not. -/
theorem c8_unknown_effect :
    (∀ (stf : String → Option ℚ) (kvs : List (String × Json)) (v : Json) (r : Json),
       lookupKey kvs "effect" = some v →
       jsonInStrList v validEffects = false →
       normalizeResult stf (.obj kvs) = .ok r →
       getKeyJ r "effect" = some (.str "unknown")) ∧
    (∀ (stf : String → Option ℚ) (v : Json) (q : ℚ) (d : Json),
       (normalizeResult stf
         (.obj [("effect", v), ("confidence", .num q), ("description", d)])).isOk = true) := by
  constructor
  · intro stf kvs v r hv hnot hnorm
    obtain ⟨hcheck, j1, j2, j3, h1, h2, h3, h4⟩ := normalizeResult_ok_decomp hnorm
    rw [normEffect_obj] at h1
    simp only [hv] at h1
    rw [if_neg (by simp [hnot])] at h1
    have hj1 : j1 = .obj (setKey kvs "effect" (.str "unknown")) := (Except.ok.inj h1).symm
    subst hj1
    obtain ⟨q, rfl⟩ := normConfidence_ok_inv h2
    obtain ⟨cap, rfl, _⟩ := normCaption_ok_inv h3
    rw [addModel_ok_inv h4]
    simp only [getKeyJ]
    rw [lookupKey_setKey_other _ _ (by decide), lookupKey_setKey_other _ _ (by decide),
      lookupKey_setKey_other _ _ (by decide), lookupKey_setKey_same]
  · intro stf v q d
    exact c7_confidence_clamped.2 stf q v d

/-- Witness for C8 at the claim's example value `"sparkle_wipe"`. -/
theorem c8_witness :
    getKeyJ (.obj [("effect", Json.str "unknown"), ("confidence", Json.num (clampQ (1/2))),
        ("description", Json.str "x"), ("caption_effects", defaultCaption),
        ("model_used", Json.str "gemini-latest")])
      "effect" = some (.str "unknown") := by
  have := c8_unknown_effect.1 stfNone
    [("effect", Json.str "sparkle_wipe"), ("confidence", Json.num (1/2)),
     ("description", Json.str "x")]
    (.str "sparkle_wipe")
    (.obj [("effect", Json.str "unknown"), ("confidence", Json.num (clampQ (1/2))),
        ("description", Json.str "x"), ("caption_effects", defaultCaption),
        ("model_used", Json.str "gemini-latest")])
    rfl rfl rfl
  exact this

theorem normCapDetected_spec (ckvs : List (String × Json)) {X : Json}
    (heff : lookupKey ckvs "effects" = some X) :
    ∃ c2, normCapDetected (.obj ckvs) = .ok (.obj c2) ∧
      (∀ k, k ≠ "detected" → lookupKey c2 k = lookupKey ckvs k) ∧
      (lookupKey ckvs "detected" = none →
        lookupKey c2 "detected" = some (.bool (!pyEqListNone X))) := by
  cases hd : lookupKey ckvs "detected" with
  | some w =>
    refine ⟨ckvs, ?_, fun k _ => rfl, fun hn => absurd hn (by simp)⟩
    rw [normCapDetected_obj]
    simp only [hd]
  | none =>
    refine ⟨setKey ckvs "detected" (.bool (!pyEqListNone X)), ?_,
      fun k hk => lookupKey_setKey_other _ _ (fun he => hk he.symm),
      fun _ => lookupKey_setKey_same _ _ _⟩
    rw [normCapDetected_obj]
    simp only [hd, heff]

theorem normCapDefaultStr_spec (key : String) (ckvs : List (String × Json)) :
    ∃ c2, normCapDefaultStr key (.obj ckvs) = .ok (.obj c2) ∧
      (∀ k, k ≠ key → lookupKey c2 k = lookupKey ckvs k) ∧
      (lookupKey ckvs key = none → lookupKey c2 key = some (.str "")) := by
  cases hd : lookupKey ckvs key with
  | some w =>
    refine ⟨ckvs, ?_, fun k _ => rfl, fun hn => absurd hn (by simp)⟩
    rw [normCapDefaultStr_obj]
    simp only [hd]
  | none =>
    refine ⟨setKey ckvs key (.str ""), ?_,
      fun k hk => lookupKey_setKey_other _ _ (fun he => hk he.symm),
      fun _ => lookupKey_setKey_same _ _ _⟩
    rw [normCapDefaultStr_obj]
    simp only [hd]

theorem normCapInner_arr (ckvs : List (String × Json)) (es : List Json)
    (heff : lookupKey ckvs "effects" = some (.arr es)) :
    ∃ c4, normCapInner (.obj ckvs) = .ok (.obj c4) ∧
      lookupKey c4 "effects" = some (.arr (pyFilterOrNone es)) ∧
      (lookupKey ckvs "detected" = none →
        lookupKey c4 "detected" = some (.bool (!pyEqListNone (.arr (pyFilterOrNone es))))) ∧
      (lookupKey ckvs "text_content" = none → lookupKey c4 "text_content" = some (.str "")) ∧
      (lookupKey ckvs "description" = none → lookupKey c4 "description" = some (.str "")) := by
  have hstep1 : normCapEffects (.obj ckvs)
      = .ok (.obj (setKey ckvs "effects" (.arr (pyFilterOrNone es)))) := by
    rw [normCapEffects_obj]
    simp only [heff, pyIterElems]
  set ckvs1 := setKey ckvs "effects" (.arr (pyFilterOrNone es)) with hckvs1
  have heff1 : lookupKey ckvs1 "effects" = some (.arr (pyFilterOrNone es)) :=
    lookupKey_setKey_same _ _ _
  obtain ⟨c2, hstep2, hpres2, hset2⟩ := normCapDetected_spec ckvs1 heff1
  obtain ⟨c3, hstep3, hpres3, hset3⟩ := normCapDefaultStr_spec "text_content" c2
  obtain ⟨c4, hstep4, hpres4, hset4⟩ := normCapDefaultStr_spec "description" c3
  refine ⟨c4, ?_, ?_, ?_, ?_, ?_⟩
  · simp [normCapInner, Bind.bind, Except.bind, hstep1, hstep2, hstep3, hstep4]
  · rw [hpres4 "effects" (by decide), hpres3 "effects" (by decide),
      hpres2 "effects" (by decide)]
    exact heff1
  · intro hn
    have hn1 : lookupKey ckvs1 "detected" = none := by
      rw [hckvs1, lookupKey_setKey_other _ _ (by decide)]; exact hn
    rw [hpres4 "detected" (by decide), hpres3 "detected" (by decide)]
    exact hset2 hn1
  · intro hn
    have hn2 : lookupKey c2 "text_content" = none := by
      rw [hpres2 "text_content" (by decide), hckvs1,
        lookupKey_setKey_other _ _ (by decide)]
      exact hn
    rw [hpres4 "text_content" (by decide)]
    exact hset3 hn2
  · intro hn
    have hn3 : lookupKey c3 "description" = none := by
      rw [hpres3 "description" (by decide), hpres2 "description" (by decide), hckvs1,
        lookupKey_setKey_other _ _ (by decide)]
      exact hn
    exact hset4 hn3

/-- C2, counterexample: the claim asserts that when `caption_effects` is
absent the synthesized default has `description = ""`; the code
(`main.py:232`) fills in `description = "No text effects analyzed"`
instead, so the claimed default sub-object is not the produced one. -/
theorem c2_counterexample :
    normalizeResult stfNone (.obj (kvsConf (9/10))) = .ok (rConf (clampQ (9/10))) ∧
    getKeyJ (rConf (clampQ (9/10))) "caption_effects" = some defaultCaption ∧
    getKeyJ defaultCaption "description" = some (.str "No text effects analyzed") ∧
    Json.str "No text effects analyzed" ≠ Json.str "" :=
  ⟨rfl, rfl, rfl, by simp⟩

/-- C2 as amended: when `caption_effects` is absent the result carries
the default sub-object with `description = "No text effects analyzed"`
(not `""` as claimed); when present with an `effects` list, the list is
filtered against the caption taxonomy (empty filtered result replaced by
`["none"]`), a missing `detected` defaults to `effects != ["none"]`
computed on the filtered list, and missing `text_content` / `description`
default to the empty string. -/
theorem c2_caption_normalization
    (stf : String → Option ℚ) (kvs : List (String × Json)) (r : Json)
    (hnorm : normalizeResult stf (.obj kvs) = .ok r) :
    (lookupKey kvs "caption_effects" = none →
       getKeyJ r "caption_effects" = some defaultCaption) ∧
    (∀ ckvs es, lookupKey kvs "caption_effects" = some (.obj ckvs) →
       lookupKey ckvs "effects" = some (.arr es) →
       ∃ ckvs2, getKeyJ r "caption_effects" = some (.obj ckvs2) ∧
         lookupKey ckvs2 "effects" = some (.arr (pyFilterOrNone es)) ∧
         (lookupKey ckvs "detected" = none →
            lookupKey ckvs2 "detected"
              = some (.bool (!pyEqListNone (.arr (pyFilterOrNone es))))) ∧
         (lookupKey ckvs "text_content" = none →
            lookupKey ckvs2 "text_content" = some (.str "")) ∧
         (lookupKey ckvs "description" = none →
            lookupKey ckvs2 "description" = some (.str ""))) := by
  obtain ⟨hcheck, j1, j2, j3, h1, h2, h3, h4⟩ := normalizeResult_ok_decomp hnorm
  obtain ⟨kvs1, rfl, hpres1, _⟩ := normEffect_ok_inv h1
  obtain ⟨q, rfl⟩ := normConfidence_ok_inv h2
  have hcap2 : lookupKey (setKey kvs1 "confidence" (.num (clampQ q))) "caption_effects"
      = lookupKey kvs "caption_effects" := by
    rw [lookupKey_setKey_other _ _ (by decide)]
    exact hpres1 _ (by decide)
  obtain ⟨cap, rfl, hor⟩ := normCaption_ok_inv h3
  rw [addModel_ok_inv h4]
  constructor
  · intro habs
    rcases hor with ⟨_, rfl⟩ | ⟨cap0, hsome, _⟩
    · simp only [getKeyJ]
      rw [lookupKey_setKey_other _ _ (by decide), lookupKey_setKey_same]
    · rw [hcap2, habs] at hsome
      exact absurd hsome (by simp)
  · intro ckvs es hsome heff
    have hobj : lookupKey (setKey kvs1 "confidence" (.num (clampQ q))) "caption_effects"
        = some (.obj ckvs) := by rw [hcap2, hsome]
    rcases hor with ⟨hnone, _⟩ | ⟨cap0, hsome2, hinner⟩
    · rw [hnone] at hobj
      exact absurd hobj (by simp)
    · have hcap0 : cap0 = .obj ckvs := by
        rw [hsome2] at hobj
        exact Option.some.inj hobj
      subst hcap0
      obtain ⟨c4, hinner2, he4, hd4, ht4, hdesc4⟩ := normCapInner_arr ckvs es heff
      rw [hinner] at hinner2
      have hcapeq : cap = .obj c4 := Except.ok.inj hinner2
      subst hcapeq
      refine ⟨c4, ?_, he4, hd4, ht4, hdesc4⟩
      simp only [getKeyJ]
      rw [lookupKey_setKey_other _ _ (by decide), lookupKey_setKey_same]

/-- Witness for the amended C2 at two concrete requests: one without
`caption_effects` (default sub-object, description
`"No text effects analyzed"`), one with a present caption whose
`effects` list gets filtered and whose missing sub-fields get their
defaults. -/
theorem c2_witness :
    (normalizeResult stfNone (.obj (kvsConf (9/10))) = .ok (rConf (clampQ (9/10))) ∧
     getKeyJ (rConf (clampQ (9/10))) "caption_effects" = some defaultCaption) ∧
    (normalizeResult stfNone (.obj kvsCapC2) = .ok rCapC2 ∧
     ∃ ckvs2, getKeyJ rCapC2 "caption_effects" = some (.obj ckvs2) ∧
       lookupKey ckvs2 "effects"
         = some (.arr (pyFilterOrNone [.str "typewriter", .str "bogus"])) ∧
       (lookupKey [("effects", Json.arr [.str "typewriter", .str "bogus"])] "detected" = none →
          lookupKey ckvs2 "detected"
            = some (.bool (!pyEqListNone
                (.arr (pyFilterOrNone [.str "typewriter", .str "bogus"]))))) ∧
       (lookupKey [("effects", Json.arr [.str "typewriter", .str "bogus"])] "text_content" = none →
          lookupKey ckvs2 "text_content" = some (.str "")) ∧
       (lookupKey [("effects", Json.arr [.str "typewriter", .str "bogus"])] "description" = none →
          lookupKey ckvs2 "description" = some (.str ""))) := by
  refine ⟨⟨rfl, ?_⟩, rfl, ?_⟩
  · exact (c2_caption_normalization stfNone (kvsConf (9/10)) _ rfl).1 rfl
  · exact (c2_caption_normalization stfNone kvsCapC2 rCapC2 rfl).2
      [("effects", Json.arr [.str "typewriter", .str "bogus"])]
      [.str "typewriter", .str "bogus"] rfl rfl

theorem checkRequired_ok_inv {kvs : List (String × Json)}
    (h : checkRequired (.obj kvs) = .ok ()) :
    (lookupKey kvs "effect").isSome ∧ (lookupKey kvs "confidence").isSome ∧
    (lookupKey kvs "description").isSome := by
  rw [checkRequired_obj] at h
  cases h1 : (lookupKey kvs "effect").isSome <;>
    cases h2 : (lookupKey kvs "confidence").isSome <;>
      cases h3 : (lookupKey kvs "description").isSome <;>
        simp [h1, h2, h3] at h ⊢

theorem checkRequired_obj_error {kvs : List (String × Json)}
    (h : lookupKey kvs "effect" = none ∨ lookupKey kvs "confidence" = none ∨
      lookupKey kvs "description" = none) :
    checkRequired (.obj kvs) = .error .valueError := by
  rw [checkRequired_obj]
  rcases h with h | h | h <;> simp [h]

theorem pyFilterOrNone_spec (items : List Json) :
    pyFilterOrNone items ≠ [] ∧
    ∀ e ∈ pyFilterOrNone items, jsonInStrList e validCaptionEffects = true := by
  unfold pyFilterOrNone
  by_cases hemp : (items.filter (fun e => jsonInStrList e validCaptionEffects)).isEmpty
  · simp only [hemp, if_pos]
    refine ⟨by simp, ?_⟩
    intro e he
    simp only [List.mem_singleton] at he
    subst he
    decide
  · simp only [hemp, if_neg, Bool.false_eq_true, not_false_eq_true, ite_false]
    refine ⟨?_, ?_⟩
    · intro hnil
      rw [hnil] at hemp
      simp at hemp
    · intro e he
      exact (List.mem_filter.mp he).2

theorem normCapEffects_ok_inv {cap0 c1 : Json} (h : normCapEffects cap0 = .ok c1) :
    ∃ ckvs0 ckvs1, cap0 = .obj ckvs0 ∧ c1 = .obj ckvs1 ∧
      ∃ es, lookupKey ckvs1 "effects" = some (.arr es) ∧ es ≠ [] ∧
        ∀ e ∈ es, jsonInStrList e validCaptionEffects = true := by
  cases cap0 with
  | obj ckvs0 =>
    rw [normCapEffects_obj] at h
    cases hl : lookupKey ckvs0 "effects" with
    | none =>
      simp only [hl] at h
      refine ⟨ckvs0, _, rfl, (Except.ok.inj h).symm, [Json.str "none"],
        lookupKey_setKey_same _ _ _, by simp, ?_⟩
      intro e he
      simp only [List.mem_singleton] at he
      subst he
      decide
    | some effVal =>
      simp only [hl] at h
      cases hit : pyIterElems effVal with
      | error e => simp only [hit] at h; exact absurd h (by simp)
      | ok items =>
        simp only [hit] at h
        obtain ⟨hne, hmem⟩ := pyFilterOrNone_spec items
        exact ⟨ckvs0, _, rfl, (Except.ok.inj h).symm, pyFilterOrNone items,
          lookupKey_setKey_same _ _ _, hne, hmem⟩
  | null => simp [normCapEffects, pyContains, Bind.bind, Except.bind] at h
  | bool b => simp [normCapEffects, pyContains, Bind.bind, Except.bind] at h
  | num q => simp [normCapEffects, pyContains, Bind.bind, Except.bind] at h
  | str s =>
    simp [normCapEffects, pyContains, pyIndexStr, pySetStr, Bind.bind, Except.bind] at h
  | arr l =>
    simp [normCapEffects, pyContains, pyIndexStr, pySetStr, Bind.bind, Except.bind] at h

theorem normCapDetected_ok_inv {ckvs1 : List (String × Json)} {c2 : Json}
    (h : normCapDetected (.obj ckvs1) = .ok c2) :
    ∃ ckvs2, c2 = .obj ckvs2 ∧ (lookupKey ckvs2 "detected").isSome ∧
      ∀ k, k ≠ "detected" → lookupKey ckvs2 k = lookupKey ckvs1 k := by
  rw [normCapDetected_obj] at h
  cases hd : lookupKey ckvs1 "detected" with
  | some w =>
    simp only [hd] at h
    exact ⟨ckvs1, (Except.ok.inj h).symm, by simp [hd], fun k _ => rfl⟩
  | none =>
    simp only [hd] at h
    cases he : lookupKey ckvs1 "effects" with
    | none => simp only [he] at h; exact absurd h (by simp)
    | some eff =>
      simp only [he] at h
      exact ⟨_, (Except.ok.inj h).symm, by simp [lookupKey_setKey_same],
        fun k hk => lookupKey_setKey_other _ _ (fun x => hk x.symm)⟩

theorem normCapDefaultStr_ok_inv {key : String} {ckvs1 : List (String × Json)} {c2 : Json}
    (h : normCapDefaultStr key (.obj ckvs1) = .ok c2) :
    ∃ ckvs2, c2 = .obj ckvs2 ∧ (lookupKey ckvs2 key).isSome ∧
      ∀ k, k ≠ key → lookupKey ckvs2 k = lookupKey ckvs1 k := by
  rw [normCapDefaultStr_obj] at h
  cases hd : lookupKey ckvs1 key with
  | some w =>
    simp only [hd] at h
    exact ⟨ckvs1, (Except.ok.inj h).symm, by simp [hd], fun k _ => rfl⟩
  | none =>
    simp only [hd] at h
    exact ⟨_, (Except.ok.inj h).symm, by simp [lookupKey_setKey_same],
      fun k hk => lookupKey_setKey_other _ _ (fun x => hk x.symm)⟩

theorem normCapInner_ok_inv {cap0 cap : Json} (h : normCapInner cap0 = .ok cap) :
    ∃ ckvs, cap = .obj ckvs ∧
      (∃ es, lookupKey ckvs "effects" = some (.arr es) ∧ es ≠ [] ∧
         ∀ e ∈ es, jsonInStrList e validCaptionEffects = true) ∧
      (lookupKey ckvs "detected").isSome ∧
      (lookupKey ckvs "text_content").isSome ∧
      (lookupKey ckvs "description").isSome := by
  unfold normCapInner at h
  obtain ⟨c1, h1, h⟩ := pyBind_ok h
  obtain ⟨c2, h2, h⟩ := pyBind_ok h
  obtain ⟨c3, h3, h4⟩ := pyBind_ok h
  obtain ⟨ckvs0, ckvs1, rfl, rfl, es, hes, hne, hmem⟩ := normCapEffects_ok_inv h1
  obtain ⟨ckvs2, rfl, hdet2, hpres2⟩ := normCapDetected_ok_inv h2
  obtain ⟨ckvs3, rfl, htc3, hpres3⟩ := normCapDefaultStr_ok_inv h3
  obtain ⟨ckvs4, rfl, hdesc4, hpres4⟩ := normCapDefaultStr_ok_inv h4
  refine ⟨ckvs4, rfl, ⟨es, ?_, hne, hmem⟩, ?_, ?_, hdesc4⟩
  · rw [hpres4 "effects" (by decide), hpres3 "effects" (by decide),
      hpres2 "effects" (by decide)]
    exact hes
  · rw [hpres4 "detected" (by decide), hpres3 "detected" (by decide)]
    exact hdet2
  · rw [hpres4 "text_content" (by decide)]
    exact htc3

theorem classify_ready_active (loads : List Char → Option Json) (stf : String → Option ℚ)
    (env : ProviderEnv) (filename : List Char) (i : Nat)
    (hext : extOk filename = true) (hpoll : pollProvider env.states = .ready i .ACTIVE) :
    classify loads stf env filename =
      { resp := respond loads stf env.completion, stateQueries := i + 1,
        analysisCalled := true, tempCreated := true, tempExistsAfter := true } := by
  unfold classify
  rw [if_pos hext, hpoll]
  simp

theorem normalizeResult_ok_normalized {stf : String → Option ℚ} {j r : Json}
    (h : normalizeResult stf j = .ok r) : normalizedResult r := by
  obtain ⟨hcheck, j1, j2, j3, h1, h2, h3, h4⟩ := normalizeResult_ok_decomp h
  obtain ⟨kvs, rfl⟩ := normEffect_ok_src h1
  obtain ⟨hse, hsc, hsd⟩ := checkRequired_ok_inv hcheck
  obtain ⟨kvs1, rfl, hpres1, s, hes, hsval⟩ := normEffect_ok_inv h1
  obtain ⟨q, rfl⟩ := normConfidence_ok_inv h2
  obtain ⟨cap, rfl, hor⟩ := normCaption_ok_inv h3
  rw [addModel_ok_inv h4]
  have capNorm : ∃ ckvs, cap = .obj ckvs ∧
      (∃ es, lookupKey ckvs "effects" = some (.arr es) ∧ es ≠ [] ∧
         ∀ e ∈ es, jsonInStrList e validCaptionEffects = true) ∧
      (lookupKey ckvs "detected").isSome ∧
      (lookupKey ckvs "text_content").isSome ∧
      (lookupKey ckvs "description").isSome := by
    rcases hor with ⟨_, rfl⟩ | ⟨cap0, _, hinner⟩
    · refine ⟨_, rfl, ⟨[Json.str "none"], rfl, by simp, ?_⟩, rfl, rfl, rfl⟩
      intro e he
      simp only [List.mem_singleton] at he
      subst he
      decide
    · exact normCapInner_ok_inv hinner
  obtain ⟨ckvs, rfl, hcapfields⟩ := capNorm
  refine ⟨⟨s, ?_, hsval⟩, ⟨clampQ q, ?_, le_max_left 0 _,
      max_le (by norm_num) (min_le_left 1 q)⟩, ?_, ⟨ckvs, ?_, hcapfields.1,
      hcapfields.2.1, hcapfields.2.2.1, hcapfields.2.2.2⟩, ?_⟩
  · simp only [getKeyJ]
    rw [lookupKey_setKey_other _ _ (by decide), lookupKey_setKey_other _ _ (by decide),
      lookupKey_setKey_other _ _ (by decide)]
    exact hes
  · simp only [getKeyJ]
    rw [lookupKey_setKey_other _ _ (by decide), lookupKey_setKey_other _ _ (by decide),
      lookupKey_setKey_same]
  · simp only [getKeyJ]
    rw [lookupKey_setKey_other _ _ (by decide), lookupKey_setKey_other _ _ (by decide),
      lookupKey_setKey_other _ _ (by decide), hpres1 "description" (by decide)]
    exact hsd
  · simp only [getKeyJ]
    rw [lookupKey_setKey_other _ _ (by decide), lookupKey_setKey_same]
  · simp only [getKeyJ]
    rw [lookupKey_setKey_same]

/-- C5: in a request that reaches the analysis call, an unparseable
completion text gives the 500 parse error; a parsed JSON object missing
any of `effect`, `confidence`, `description` gives the 500 parse error;
and no partial result is ever returned: every 200 body is a fully
normalized ClassificationResult. -/
theorem c5_parse_errors_and_totality
    (loads : List Char → Option Json) (stf : String → Option ℚ)
    (env : ProviderEnv) (filename : List Char) (i : Nat)
    (hext : extOk filename = true)
    (hpoll : pollProvider env.states = .ready i .ACTIVE) :
    (loads (extractText env.completion) = none →
       (classify loads stf env filename).resp = .parseError500) ∧
    (∀ kvs, loads (extractText env.completion) = some (.obj kvs) →
       (lookupKey kvs "effect" = none ∨ lookupKey kvs "confidence" = none ∨
        lookupKey kvs "description" = none) →
       (classify loads stf env filename).resp = .parseError500) ∧
    (∀ r, (classify loads stf env filename).resp = .success r → normalizedResult r) := by
  have hcl := classify_ready_active loads stf env filename i hext hpoll
  refine ⟨?_, ?_, ?_⟩
  · intro hnone
    rw [hcl]
    show respond loads stf env.completion = .parseError500
    unfold respond
    rw [hnone]
  · intro kvs hsome hmiss
    rw [hcl]
    show respond loads stf env.completion = .parseError500
    unfold respond
    rw [hsome]
    have hnr : normalizeResult stf (.obj kvs) = .error .valueError := by
      unfold normalizeResult
      simp [Bind.bind, Except.bind, checkRequired_obj_error hmiss]
    simp [hnr]
  · intro r hresp
    rw [hcl] at hresp
    have hresp2 : respond loads stf env.completion = .success r := hresp
    unfold respond at hresp2
    cases hl : loads (extractText env.completion) with
    | none => rw [hl] at hresp2; exact absurd hresp2 (by simp)
    | some j =>
      rw [hl] at hresp2
      cases hn : normalizeResult stf j with
      | error e =>
        simp only [hn] at hresp2
        cases e <;> exact absurd hresp2 (by simp)
      | ok r0 =>
        simp only [hn] at hresp2
        have hr0 : r0 = r := by
          simpa [Resp.success.injEq] using hresp2
        subst hr0
        exact normalizeResult_ok_normalized hn

/-- Witness for C5: a `.mp4` request against an immediately-ACTIVE
provider whose completion fails to parse is answered with the 500 parse
error. -/
theorem c5_witness :
    extOk ("v.mp4".toList) = true ∧
    pollProvider envC5.states = .ready 0 .ACTIVE ∧
    (classify loadsNone stfNone envC5 ("v.mp4".toList)).resp = .parseError500 := by
  refine ⟨rfl, rfl, ?_⟩
  exact (c5_parse_errors_and_totality loadsNone stfNone envC5 ("v.mp4".toList) 0
    rfl rfl).1 rfl

theorem pollSteps_ready (states : Nat → FileState) (k : Nat) :
    ∀ idx steps, (∀ i, i < k → states (idx + i) = .PROCESSING) →
      states (idx + k) ≠ .PROCESSING → k ≤ steps →
      pollSteps states idx steps = .ready (idx + k) (states (idx + k)) := by
  induction k with
  | zero =>
    intro idx steps hproc hstop hle
    cases hs : states idx with
    | PROCESSING => rw [Nat.add_zero] at hstop; exact absurd hs hstop
    | ACTIVE => cases steps <;> simp [pollSteps, Nat.add_zero, hs]
    | FAILED => cases steps <;> simp [pollSteps, Nat.add_zero, hs]
  | succ k ih =>
    intro idx steps hproc hstop hle
    have h0 : states idx = .PROCESSING := by
      have := hproc 0 (Nat.succ_pos k)
      rwa [Nat.add_zero] at this
    cases steps with
    | zero => omega
    | succ n =>
      have hstep : pollSteps states idx (n + 1) = pollSteps states (idx + 1) n := by
        simp [pollSteps, h0]
      have hshift : ∀ i, i < k → states (idx + 1 + i) = .PROCESSING := by
        intro i hi
        have := hproc (i + 1) (by omega)
        rwa [show idx + (i + 1) = idx + 1 + i by omega] at this
      have hstop2 : states (idx + 1 + k) ≠ .PROCESSING := by
        rwa [show idx + 1 + k = idx + (k + 1) by omega]
      rw [hstep, ih (idx + 1) n hshift hstop2 (by omega),
        show idx + 1 + k = idx + (k + 1) by omega]

theorem pollSteps_timeout (states : Nat → FileState) :
    ∀ steps idx, (∀ i, i ≤ steps → states (idx + i) = .PROCESSING) →
      pollSteps states idx steps = .timedOut (idx + steps) := by
  intro steps
  induction steps with
  | zero =>
    intro idx hproc
    have h0 : states idx = .PROCESSING := by
      have := hproc 0 (Nat.le_refl 0)
      rwa [Nat.add_zero] at this
    have hstep : pollSteps states idx 0 = .timedOut idx := by
      simp [pollSteps, h0]
    rw [hstep, Nat.add_zero]
  | succ n ih =>
    intro idx hproc
    have h0 : states idx = .PROCESSING := by
      have := hproc 0 (Nat.zero_le _)
      rwa [Nat.add_zero] at this
    have hstep : pollSteps states idx (n + 1) = pollSteps states (idx + 1) n := by
      simp [pollSteps, h0]
    have hshift : ∀ i, i ≤ n → states (idx + 1 + i) = .PROCESSING := by
      intro i hi
      have := hproc (i + 1) (by omega)
      rwa [show idx + (i + 1) = idx + 1 + i by omega] at this
    rw [hstep, ih (idx + 1) hshift, show idx + 1 + n = idx + (n + 1) by omega]

/-- C3: when the provider reports PROCESSING on the first `k` state
queries and ACTIVE on the next, with the accumulated wait
(`2` time units per re-query) below the 120-unit budget, the poller makes
exactly `k + 1` state queries and the handler proceeds to the analysis
call. -/
theorem c3_poller_query_count
    (loads : List Char → Option Json) (stf : String → Option ℚ)
    (env : ProviderEnv) (filename : List Char) (k : Nat)
    (hext : extOk filename = true)
    (hproc : ∀ i, i < k → env.states i = .PROCESSING)
    (hactive : env.states k = .ACTIVE)
    (hbound : 2 * k ≤ 120) :
    (classify loads stf env filename).stateQueries = k + 1 ∧
    (classify loads stf env filename).analysisCalled = true := by
  have hpoll : pollProvider env.states = .ready k .ACTIVE := by
    have h := pollSteps_ready env.states k 0 (maxWaitTime / waitInterval)
      (by intro i hi; simpa using hproc i hi)
      (by rw [Nat.zero_add, hactive]; exact fun hx => FileState.noConfusion hx)
      (by simp [maxWaitTime, waitInterval]; omega)
    unfold pollProvider
    rw [h]
    simp [hactive]
  rw [classify_ready_active loads stf env filename k hext hpoll]
  exact ⟨rfl, rfl⟩

/-- Witness for C3 at `k = 2`: two PROCESSING reports then ACTIVE give
exactly three state queries and an analysis call. -/
theorem c3_witness :
    (∀ i, i < 2 → envC3.states i = .PROCESSING) ∧ envC3.states 2 = .ACTIVE ∧
    (classify loadsNone stfNone envC3 ("v.mp4".toList)).stateQueries = 2 + 1 ∧
    (classify loadsNone stfNone envC3 ("v.mp4".toList)).analysisCalled = true := by
  have h := c3_poller_query_count loadsNone stfNone envC3 ("v.mp4".toList) 2 rfl
    (by decide) rfl (by norm_num)
  exact ⟨by decide, rfl, h.1, h.2⟩

/-- C4: when the provider reports PROCESSING on every state query, the
poller fails the request with HTTP 408 exactly when the accumulated wait
(2 time units per re-query) reaches the 120-unit budget: the 61st query
(index 60, elapsed wait `2 * 60 = 120`) is the last, no further state
query is made, and the analysis is never called. -/
theorem c4_poller_timeout
    (loads : List Char → Option Json) (stf : String → Option ℚ)
    (env : ProviderEnv) (filename : List Char)
    (hext : extOk filename = true)
    (hproc : ∀ i, i ≤ 60 → env.states i = .PROCESSING) :
    classify loads stf env filename =
      { resp := .timeout408, stateQueries := 61, analysisCalled := false,
        tempCreated := true, tempExistsAfter := true } := by
  have hpoll : pollProvider env.states = .timedOut 60 := by
    have h := pollSteps_timeout env.states 60 0 (by intro i hi; simpa using hproc i hi)
    unfold pollProvider
    simpa [maxWaitTime, waitInterval] using h
  unfold classify
  rw [if_pos hext, hpoll]

/-- Witness for C4: an always-PROCESSING provider yields the 408 after
exactly 61 state queries. -/
theorem c4_witness :
    (∀ i, i ≤ 60 → envC4.states i = .PROCESSING) ∧
    classify loadsNone stfNone envC4 ("v.mp4".toList) =
      { resp := .timeout408, stateQueries := 61, analysisCalled := false,
        tempCreated := true, tempExistsAfter := true } :=
  ⟨fun _ _ => rfl,
   c4_poller_timeout loadsNone stfNone envC4 ("v.mp4".toList) rfl (fun _ _ => rfl)⟩

theorem respond_ne_badExtension (loads : List Char → Option Json)
    (stf : String → Option ℚ) (completion : List Char) :
    respond loads stf completion ≠ .badExtension400 := by
  unfold respond
  cases hl : loads (extractText completion) with
  | none => simp [hl]
  | some j =>
    cases hn : normalizeResult stf j with
    | ok r => simp [hl, hn]
    | error e => cases e <;> simp [hl, hn]

/-- C6: the handler accepts exactly the filenames whose extension
(extracted as `os.path.splitext` does, after lower-casing the whole
name) is `.mp4`, `.mov` or `.avi`: accepted files get a staged temporary
file and are never answered with the unsupported-type 400, while any
other extension is rejected with the 400 immediately — zero provider
state queries, no analysis call, no temporary file. -/
theorem c6_extension_validation
    (loads : List Char → Option Json) (stf : String → Option ℚ)
    (env : ProviderEnv) (filename : List Char) :
    (extOk filename = true →
       (classify loads stf env filename).tempCreated = true ∧
       (classify loads stf env filename).resp ≠ .badExtension400) ∧
    (extOk filename = false →
       classify loads stf env filename =
         { resp := .badExtension400, stateQueries := 0, analysisCalled := false,
           tempCreated := false, tempExistsAfter := false }) := by
  constructor
  · intro hext
    unfold classify
    rw [if_pos hext]
    cases hpoll : pollProvider env.states with
    | timedOut i => exact ⟨rfl, fun h => Resp.noConfusion h⟩
    | ready i s =>
      cases s with
      | PROCESSING => exact ⟨rfl, respond_ne_badExtension loads stf env.completion⟩
      | ACTIVE => exact ⟨rfl, respond_ne_badExtension loads stf env.completion⟩
      | FAILED => exact ⟨rfl, fun h => Resp.noConfusion h⟩
  · intro hext
    unfold classify
    rw [if_neg (by simp [hext])]

/-- Witness for C6: `Video.MP4` (upper case) is accepted and staged;
`clip.txt` is rejected with the 400 before any provider interaction. -/
theorem c6_witness :
    extOk ("Video.MP4".toList) = true ∧
    (classify loadsNone stfNone envC5 ("Video.MP4".toList)).tempCreated = true ∧
    (classify loadsNone stfNone envC5 ("Video.MP4".toList)).resp ≠ .badExtension400 ∧
    extOk ("clip.txt".toList) = false ∧
    classify loadsNone stfNone envC5 ("clip.txt".toList) =
      { resp := .badExtension400, stateQueries := 0, analysisCalled := false,
        tempCreated := false, tempExistsAfter := false } := by
  have ha := (c6_extension_validation loadsNone stfNone envC5 ("Video.MP4".toList)).1 rfl
  have hb := (c6_extension_validation loadsNone stfNone envC5 ("clip.txt".toList)).2 rfl
  exact ⟨rfl, ha.1, ha.2, rfl, hb⟩

/-- C1 (code bug): the temporary upload file created at `main.py:94` with
`tempfile.NamedTemporaryFile(suffix=file_ext, delete=False)` is never
removed: no exit path of `classify_video_effect` calls
`os.unlink`/`os.remove` and there is no `finally` block, so on the
success path, the parse-error path, the readiness-timeout path and the
Provider-FAILED path alike the file still exists after the request —
contradicting the claim (and spec sections 4.1, 5 and 9, which require
scoped cleanup on every exit path). Each conjunct evaluates the embedded
handler on a concrete request exercising one exit path. -/
theorem c1_tempfile_never_deleted :
    ((classify loadsC10 stfNone envC5 ("clip.mp4".toList)).resp
        = .success (Json.obj
          [("effect", .str "hard_cut"), ("confidence", .num (clampQ (9/10))),
           ("description", .str "x"), ("zebra", .num 7),
           ("caption_effects", defaultCaption),
           ("model_used", .str "gemini-latest")]) ∧
     (classify loadsC10 stfNone envC5 ("clip.mp4".toList)).tempCreated = true ∧
     (classify loadsC10 stfNone envC5 ("clip.mp4".toList)).tempExistsAfter = true) ∧
    ((classify loadsNone stfNone envC5 ("clip.mp4".toList)).resp = .parseError500 ∧
     (classify loadsNone stfNone envC5 ("clip.mp4".toList)).tempExistsAfter = true) ∧
    ((classify loadsNone stfNone envC4 ("clip.mp4".toList)).resp = .timeout408 ∧
     (classify loadsNone stfNone envC4 ("clip.mp4".toList)).tempExistsAfter = true) ∧
    ((classify loadsNone stfNone envFailed ("clip.mp4".toList)).resp = .processingFailed400 ∧
     (classify loadsNone stfNone envFailed ("clip.mp4".toList)).tempExistsAfter = true) :=
  ⟨⟨rfl, rfl, rfl⟩, ⟨rfl, rfl⟩, ⟨rfl, rfl⟩, ⟨rfl, rfl⟩⟩

theorem lstrip_cons_ws (c : Char) (h : pyIsSpace c = true) (l : List Char) :
    lstripChars (c :: l) = lstripChars l := by
  simp [lstripChars, List.dropWhile_cons, h]

theorem lstrip_cons_nws (c : Char) (h : pyIsSpace c = false) (l : List Char) :
    lstripChars (c :: l) = c :: l := by
  simp [lstripChars, List.dropWhile_cons, h]

theorem rstrip_append_ws (c : Char) (h : pyIsSpace c = true) (l : List Char) :
    rstripChars (l ++ [c]) = rstripChars l := by
  simp [rstripChars, List.reverse_append, List.dropWhile_cons, h]

theorem rstrip_append_nws (c : Char) (h : pyIsSpace c = false) (l : List Char) :
    rstripChars (l ++ [c]) = l ++ [c] := by
  simp [rstripChars, List.reverse_append, List.dropWhile_cons, h]

theorem lstrip_append (l1 l2 : List Char) :
    lstripChars (l1 ++ l2) =
      if (lstripChars l1).isEmpty then lstripChars l2 else lstripChars l1 ++ l2 := by
  induction l1 with
  | nil => simp [lstripChars]
  | cons c l1 ih =>
    cases hc : pyIsSpace c with
    | true => simpa [lstrip_cons_ws c hc] using ih
    | false => simp [lstrip_cons_nws c hc]

theorem strip_cons_ws (c : Char) (h : pyIsSpace c = true) (l : List Char) :
    stripChars (c :: l) = stripChars l := by
  simp [stripChars, lstrip_cons_ws c h]

theorem strip_append_ws (c : Char) (h : pyIsSpace c = true) (l : List Char) :
    stripChars (l ++ [c]) = stripChars l := by
  unfold stripChars
  rw [lstrip_append]
  by_cases he : (lstripChars l).isEmpty = true
  · rw [if_pos he, List.isEmpty_iff.mp he]
    simp [lstripChars, rstripChars, List.dropWhile_cons, h]
  · rw [if_neg he]
    exact rstrip_append_ws c h (lstripChars l)

theorem dropWhile_ws_idem (l : List Char) :
    List.dropWhile pyIsSpace (List.dropWhile pyIsSpace l) = List.dropWhile pyIsSpace l := by
  induction l with
  | nil => simp
  | cons c l ih =>
    cases hc : pyIsSpace c with
    | true => simpa [List.dropWhile_cons, hc] using ih
    | false => simp [List.dropWhile_cons, hc]

theorem lstrip_idem (l : List Char) : lstripChars (lstripChars l) = lstripChars l :=
  dropWhile_ws_idem l

theorem rstrip_idem (l : List Char) : rstripChars (rstripChars l) = rstripChars l := by
  simp [rstripChars, List.reverse_reverse, dropWhile_ws_idem]

theorem rstrip_prefix (l : List Char) : rstripChars l <+: l := by
  unfold rstripChars
  have h : List.dropWhile pyIsSpace l.reverse <:+ l.reverse := List.dropWhile_suffix pyIsSpace
  have h2 : (List.dropWhile pyIsSpace l.reverse).reverse <+: l.reverse.reverse :=
    List.reverse_prefix.mpr h
  simpa using h2

theorem lstrip_eq_self_head {c : Char} {t : List Char}
    (h : lstripChars (c :: t) = c :: t) : pyIsSpace c = false := by
  cases hc : pyIsSpace c with
  | false => rfl
  | true =>
    rw [lstrip_cons_ws c hc] at h
    have hlen := congrArg List.length h
    have hle : (lstripChars t).length ≤ t.length :=
      (List.dropWhile_suffix pyIsSpace).sublist.length_le
    simp only [List.length_cons] at hlen
    omega

theorem lstrip_rstrip {u : List Char} (h : lstripChars u = u) :
    lstripChars (rstripChars u) = rstripChars u := by
  cases u with
  | nil => simp [lstripChars, rstripChars]
  | cons c t =>
    have hc : pyIsSpace c = false := lstrip_eq_self_head h
    obtain ⟨r, hr⟩ := rstrip_prefix (c :: t)
    cases hrs : rstripChars (c :: t) with
    | nil => simp [lstripChars]
    | cons d w =>
      rw [hrs, List.cons_append] at hr
      have hd : d = c := (List.cons.inj hr).1
      rw [hd]
      exact lstrip_cons_nws c hc w

theorem strip_idem (l : List Char) : stripChars (stripChars l) = stripChars l := by
  unfold stripChars
  rw [lstrip_rstrip (lstrip_idem l), rstrip_idem]

theorem isPrefixOf_self_append (l1 l2 : List Char) : l1.isPrefixOf (l1 ++ l2) = true := by
  induction l1 with
  | nil => simp [List.isPrefixOf]
  | cons c l1 ih => simp [List.isPrefixOf, ih]

theorem isSuffixOf_self_append (l1 l2 : List Char) : l2.isSuffixOf (l1 ++ l2) = true := by
  simp [List.isSuffixOf, List.reverse_append, isPrefixOf_self_append]

/-- `extractText` with the `let` chain written out, for rewriting. -/
theorem extractText_eq (s : List Char) :
    extractText s =
      stripChars
        (if fenceClose.isSuffixOf
            (if fenceOpen.isPrefixOf (stripChars s) then (stripChars s).drop 7
             else stripChars s) then
          dropRightPy 3
            (if fenceOpen.isPrefixOf (stripChars s) then (stripChars s).drop 7
             else stripChars s)
        else
          if fenceOpen.isPrefixOf (stripChars s) then (stripChars s).drop 7
          else stripChars s) := rfl

theorem strip_fenceWrap_inner (t : List Char) :
    stripChars (('\n' :: t) ++ ['\n']) = stripChars t := by
  rw [strip_append_ws '\n' rfl, strip_cons_ws '\n' rfl]

theorem extract_fenceWrap (t : List Char) : extractText (fenceWrap t) = stripChars t := by
  have hcons : fenceWrap t
      = '\x60' :: ('\x60' :: '\x60' :: 'j' :: 's' :: 'o' :: 'n' :: '\n' :: (t ++ '\n' :: fenceClose)) := by
    simp [fenceWrap, fenceOpen]
  have hsnoc : fenceWrap t = (fenceOpen ++ ('\n' :: t) ++ ['\n', '\x60', '\x60']) ++ ['\x60'] := by
    simp [fenceWrap, fenceOpen, fenceClose]
  have hstrip : stripChars (fenceWrap t) = fenceWrap t := by
    unfold stripChars
    rw [hcons, lstrip_cons_nws '\x60' rfl, ← hcons, hsnoc, rstrip_append_nws '\x60' rfl]
  have hsplit : fenceWrap t = fenceOpen ++ (('\n' :: t) ++ ('\n' :: fenceClose)) := by
    simp [fenceWrap]
  have hpre : fenceOpen.isPrefixOf (fenceWrap t) = true := by
    rw [hsplit]
    exact isPrefixOf_self_append _ _
  have hdrop : (fenceWrap t).drop 7 = ('\n' :: t) ++ ('\n' :: fenceClose) := by
    rw [hsplit, show 7 = fenceOpen.length from rfl, List.drop_left]
  have hassoc : ('\n' :: t) ++ ('\n' :: fenceClose) = (('\n' :: t) ++ ['\n']) ++ fenceClose := by
    simp
  have hsuf : fenceClose.isSuffixOf (('\n' :: t) ++ ('\n' :: fenceClose)) = true := by
    rw [hassoc]
    exact isSuffixOf_self_append _ _
  have hdropr : dropRightPy 3 (('\n' :: t) ++ ('\n' :: fenceClose)) = ('\n' :: t) ++ ['\n'] := by
    rw [hassoc]
    unfold dropRightPy
    rw [List.take_left' (by simp [fenceClose])]
  rw [extractText_eq, hstrip, if_pos hpre, hdrop, if_pos hsuf, hdropr]
  exact strip_fenceWrap_inner t

theorem extract_nofence (t : List Char)
    (h1 : fenceOpen.isPrefixOf (stripChars t) = false)
    (h2 : fenceClose.isSuffixOf (stripChars t) = false) :
    extractText t = stripChars t := by
  have h1ne : ¬ (fenceOpen.isPrefixOf (stripChars t) = true) := by
    rw [h1]
    exact Bool.false_ne_true
  have h2ne : ¬ (fenceClose.isSuffixOf (stripChars t) = true) := by
    rw [h2]
    exact Bool.false_ne_true
  rw [extractText_eq, if_neg h1ne, if_neg h2ne]
  exact strip_idem t

/-- C9: wrapping a completion text in a JSON-tagged fenced code block
(opener at the start, closer at the end, newline-separated) does not
change what the handler parses: the extracted text and hence the whole
response are the same as for the unwrapped text. The hypotheses say the
(stripped) text does not itself start with a fence opener or end with a
closer — true of every JSON text, which can neither start nor end with a
backtick. -/
theorem c9_fence_stripping
    (loads : List Char → Option Json) (stf : String → Option ℚ) (t : List Char)
    (h1 : fenceOpen.isPrefixOf (stripChars t) = false)
    (h2 : fenceClose.isSuffixOf (stripChars t) = false) :
    extractText (fenceWrap t) = extractText t ∧
    respond loads stf (fenceWrap t) = respond loads stf t := by
  have heq : extractText (fenceWrap t) = extractText t :=
    (extract_fenceWrap t).trans (extract_nofence t h1 h2).symm
  refine ⟨heq, ?_⟩
  unfold respond
  rw [heq]

/-- Witness for C9 at the claim's example completion. -/
theorem c9_witness :
    fenceOpen.isPrefixOf (stripChars jsonTextC9) = false ∧
    fenceClose.isSuffixOf (stripChars jsonTextC9) = false ∧
    extractText (fenceWrap jsonTextC9) = extractText jsonTextC9 ∧
    respond loadsNone stfNone (fenceWrap jsonTextC9) = respond loadsNone stfNone jsonTextC9 := by
  have h := c9_fence_stripping loadsNone stfNone jsonTextC9 rfl rfl
  exact ⟨rfl, rfl, h.1, h.2⟩
